import Mathlib

/-!
Shallow embedding of src/webar-stable/scripts/smoothing.js.

JavaScript floating-point numbers are modelled as real numbers; all
arithmetic is exact.  The THREE.js vector/quaternion operations the code
calls (Vector3.lerp, Vector3.multiplyScalar, Vector3.distanceTo,
Quaternion.dot, Quaternion.normalize, Quaternion.slerp) are an external
library; they are modelled here following the three.js implementations.
-/

noncomputable section

/-- A THREE.Vector3 with real components. -/
structure Vec3 where
  x : ℝ
  y : ℝ
  z : ℝ
deriving DecidableEq

/-- A THREE.Quaternion with real components. -/
structure Quat where
  x : ℝ
  y : ℝ
  z : ℝ
  w : ℝ
deriving DecidableEq

/-- THREE.Vector3.lerp: v + (target - v) * alpha, componentwise. -/
def Vec3.lerp (v target : Vec3) (alpha : ℝ) : Vec3 :=
  ⟨v.x + (target.x - v.x) * alpha,
   v.y + (target.y - v.y) * alpha,
   v.z + (target.z - v.z) * alpha⟩

/-- THREE.Vector3.multiplyScalar. -/
def Vec3.multiplyScalar (v : Vec3) (s : ℝ) : Vec3 :=
  ⟨v.x * s, v.y * s, v.z * s⟩

/-- THREE.Vector3.distanceTo: the Euclidean distance. -/
def Vec3.distanceTo (a b : Vec3) : ℝ :=
  Real.sqrt ((a.x - b.x) * (a.x - b.x) + (a.y - b.y) * (a.y - b.y)
    + (a.z - b.z) * (a.z - b.z))

/-- THREE.Quaternion.dot. -/
def Quat.dot (a b : Quat) : ℝ :=
  a.x * b.x + a.y * b.y + a.z * b.z + a.w * b.w

/-- THREE.Quaternion.lengthSq. -/
def Quat.normSq (q : Quat) : ℝ :=
  q.x * q.x + q.y * q.y + q.z * q.z + q.w * q.w

/-- THREE.Quaternion.length. -/
def Quat.length (q : Quat) : ℝ :=
  Real.sqrt q.normSq

/-- THREE.Quaternion.normalize: divide by the length, or the identity
quaternion when the length is 0 (three.js sets x=y=z=0, w=1 there). -/
def Quat.normalize (q : Quat) : Quat :=
  let l := q.length
  if l = 0 then ⟨0, 0, 0, 1⟩
  else ⟨q.x / l, q.y / l, q.z / l, q.w / l⟩

/-- Number.EPSILON of JavaScript, 2^-52. -/
def numberEpsilon : ℝ := 1 / 2 ^ 52

/-- THREE.Quaternion.slerp qa qb t, following the three.js branch structure:
early outs for t = 0 and t = 1; negate qb when the dot product is negative
(shortest arc); return qa unchanged when cosHalfTheta >= 1; fall back to a
normalized linear blend when sin^2 is below Number.EPSILON; otherwise the
trigonometric ratio formula.  three.js computes
halfTheta = atan2(sinHalfTheta, cosHalfTheta) with
sinHalfTheta = sqrt(1 - cosHalfTheta^2) > 0 and cosHalfTheta >= 0 on that
branch, which equals arccos cosHalfTheta; it is modelled as arccos. -/
def Quat.slerp (qa qb : Quat) (t : ℝ) : Quat :=
  if t = 0 then qa
  else if t = 1 then qb
  else
    let cosHalfTheta0 := qa.w * qb.w + qa.x * qb.x + qa.y * qb.y + qa.z * qb.z
    let q2 : Quat := if cosHalfTheta0 < 0 then ⟨-qb.x, -qb.y, -qb.z, -qb.w⟩ else qb
    let cosHalfTheta := if cosHalfTheta0 < 0 then -cosHalfTheta0 else cosHalfTheta0
    if 1 ≤ cosHalfTheta then qa
    else
      let sqrSinHalfTheta := 1 - cosHalfTheta * cosHalfTheta
      if sqrSinHalfTheta ≤ numberEpsilon then
        Quat.normalize
          ⟨(1 - t) * qa.x + t * q2.x, (1 - t) * qa.y + t * q2.y,
           (1 - t) * qa.z + t * q2.z, (1 - t) * qa.w + t * q2.w⟩
      else
        let sinHalfTheta := Real.sqrt sqrSinHalfTheta
        let halfTheta := Real.arccos cosHalfTheta
        let ratioA := Real.sin ((1 - t) * halfTheta) / sinHalfTheta
        let ratioB := Real.sin (t * halfTheta) / sinHalfTheta
        ⟨qa.x * ratioA + q2.x * ratioB, qa.y * ratioA + q2.y * ratioB,
         qa.z * ratioA + q2.z * ratioB, qa.w * ratioA + q2.w * ratioB⟩

/-!  The LowPassFilter class (smoothing.js lines 170-193). -/

/-- LowPassFilter state: lastValue and hatxprev are null until the first
sample (hatxprev is assigned in the constructor and in reset but never read
elsewhere in the source). -/
structure LowPassFilter where
  lastValue : Option ℝ
  hatxprev : Option ℝ

/-- A freshly constructed LowPassFilter. -/
def LowPassFilter.init : LowPassFilter := ⟨none, none⟩

/-- LowPassFilter.reset: both fields back to null. -/
def LowPassFilter.reset (_ : LowPassFilter) : LowPassFilter := ⟨none, none⟩

/-- The smoothing factor the source computes on a non-first call:
RC = 1 / (cutoff * 2 * pi); alpha = RC / (RC + deltaTime).  This alpha is
the weight placed on the NEW value in the update below. -/
def lowPassAlpha (cutoff deltaTime : ℝ) : ℝ :=
  let RC := 1 / (cutoff * 2 * Real.pi)
  RC / (RC + deltaTime)

/-- LowPassFilter.filter(value, cutoff, deltaTime): first call stores and
returns value; later calls update
lastValue = alpha * value + (1 - alpha) * lastValue and return it. -/
def LowPassFilter.filter (st : LowPassFilter) (value cutoff deltaTime : ℝ) :
    LowPassFilter × ℝ :=
  match st.lastValue with
  | none => ({ st with lastValue := some value }, value)
  | some last =>
      let alpha := lowPassAlpha cutoff deltaTime
      let newValue := alpha * value + (1 - alpha) * last
      ({ st with lastValue := some newValue }, newValue)

/-!  The OneEuroFilter class (smoothing.js lines 18-165). -/

/-- OneEuroFilter state (the pre-allocated temp vectors carry no state). -/
structure OneEuroFilter where
  mincutoff : ℝ
  beta : ℝ
  dcutoff : ℝ
  lastTime : Option ℝ
  xFilter : LowPassFilter
  yFilter : LowPassFilter
  zFilter : LowPassFilter
  lastQuat : Option Quat
  angularVelFilter : LowPassFilter

/-- new OneEuroFilter() with the constructor defaults
(mincutoff = 1.0, beta = 0.0, dcutoff = 1.0). -/
def OneEuroFilter.init : OneEuroFilter :=
  ⟨1, 0, 1, none, .init, .init, .init, none, .init⟩

/-- OneEuroFilter.reset. -/
def OneEuroFilter.reset (f : OneEuroFilter) : OneEuroFilter :=
  { f with
    lastTime := none
    xFilter := f.xFilter.reset
    yFilter := f.yFilter.reset
    zFilter := f.zFilter.reset
    angularVelFilter := f.angularVelFilter.reset
    lastQuat := none }

/-- OneEuroFilter.computeAngularRate(quaternion, deltaTime): 0 when lastQuat
is null, else acos of the dot product clamped to [-1, 1], divided by
deltaTime. -/
def OneEuroFilter.computeAngularRate (f : OneEuroFilter) (q : Quat)
    (deltaTime : ℝ) : ℝ :=
  match f.lastQuat with
  | none => 0
  | some lq =>
      let d := Quat.dot lq q
      let angle := Real.arccos (max (-1) (min 1 d))
      angle / deltaTime

/-- The adaptive cutoff the source computes: mincutoff + beta * rate. -/
def adaptiveCutoff (mincutoff beta rate : ℝ) : ℝ :=
  mincutoff + beta * rate

/-- The slerp blend factor of OneEuroFilter.filterQuaternion:
alpha = min(1.0, cutoff * deltaTime). -/
def quatBlendAlpha (cutoff deltaTime : ℝ) : ℝ :=
  min 1 (cutoff * deltaTime)

/-- OneEuroFilter.filterQuaternion(quaternion, timestamp). -/
def OneEuroFilter.filterQuaternion (f : OneEuroFilter) (q : Quat)
    (timestamp : ℝ) : OneEuroFilter × Quat :=
  match f.lastTime, f.lastQuat with
  | some lt, some lq =>
      let deltaTime := timestamp - lt
      let f1 := { f with lastTime := some timestamp }
      if deltaTime ≤ 0 then (f1, q)
      else
        let rate := f1.computeAngularRate q deltaTime
        let cutoff := adaptiveCutoff f.mincutoff f.beta rate
        let alpha := quatBlendAlpha cutoff deltaTime
        let newQuat := Quat.slerp lq q alpha
        ({ f1 with lastQuat := some newQuat }, newQuat)
  | _, _ => ({ f with lastQuat := some q }, q)

/-- OneEuroFilter.computeAdaptiveAlpha(linearSpeed, angularSpeed, alphaMin,
alphaMax): combine the speeds, map to alphaMin + (alphaMax - alphaMin) *
min(1, combinedSpeed * 2), clamp to [alphaMin, alphaMax]. -/
def OneEuroFilter.computeAdaptiveAlpha
    (linearSpeed angularSpeed alphaMin alphaMax : ℝ) : ℝ :=
  let combinedSpeed :=
    Real.sqrt (linearSpeed * linearSpeed + angularSpeed * angularSpeed)
  let adaptiveAlpha := alphaMin + (alphaMax - alphaMin) * min 1 (combinedSpeed * 2)
  max alphaMin (min alphaMax adaptiveAlpha)

/-!  The smooth-follow A-Frame component (smoothing.js lines 199-329). -/

/-- The schema data of smooth-follow.  hasAnchor models whether data.anchor
is a non-null selector. -/
structure SmoothFollowData where
  hasAnchor : Bool
  overscan : ℝ
  alphaMin : ℝ
  alphaMax : ℝ

/-- A decomposed transform: the anchor's world matrix decomposed into
position, quaternion and scale, and likewise the smoothGroup transform. -/
structure Pose where
  position : Vec3
  quaternion : Quat
  scale : Vec3

/-- The mutable state of the smooth-follow component. -/
structure SmoothFollow where
  data : SmoothFollowData
  filter : OneEuroFilter
  snapNextFrame : Bool
  isVisible : Bool
  videoPlaneVisible : Bool
  smoothGroup : Pose

/-- smooth-follow.onTargetFound. -/
def SmoothFollow.onTargetFound (c : SmoothFollow) : SmoothFollow :=
  { c with
    isVisible := true
    snapNextFrame := true
    filter := c.filter.reset
    videoPlaneVisible := true }

/-- smooth-follow.onTargetLost. -/
def SmoothFollow.onTargetLost (c : SmoothFollow) : SmoothFollow :=
  { c with
    isVisible := false
    videoPlaneVisible := false }

/-- smooth-follow.computeLinearSpeed(deltaTime), with the target position
already decomposed this tick. -/
def SmoothFollow.computeLinearSpeed (c : SmoothFollow) (target : Pose)
    (deltaTime : ℝ) : ℝ :=
  if deltaTime ≤ 0 then 0
  else target.position.distanceTo c.smoothGroup.position / deltaTime

/-- smooth-follow.computeAngularSpeed(deltaTime). -/
def SmoothFollow.computeAngularSpeed (c : SmoothFollow) (target : Pose)
    (deltaTime : ℝ) : ℝ :=
  if deltaTime ≤ 0 then 0
  else
    let d := c.smoothGroup.quaternion.dot target.quaternion
    let angle := Real.arccos (max (-1) (min 1 d))
    angle / deltaTime

/-- smooth-follow.tick(time, deltaTime).  The time argument is unused by the
source; target is the anchor's world matrix decomposed into position,
quaternion and scale. -/
def SmoothFollow.tick (c : SmoothFollow) (target : Pose) (deltaTime : ℝ) :
    SmoothFollow :=
  if !c.data.hasAnchor || !c.isVisible then c
  else if c.snapNextFrame then
    { c with
      smoothGroup :=
        { position := target.position
          quaternion := target.quaternion
          scale := target.scale.multiplyScalar c.data.overscan }
      snapNextFrame := false }
  else
    let linearSpeed := c.computeLinearSpeed target deltaTime
    let angularSpeed := c.computeAngularSpeed target deltaTime
    let adaptiveAlpha := OneEuroFilter.computeAdaptiveAlpha
      linearSpeed angularSpeed c.data.alphaMin c.data.alphaMax
    { c with
      smoothGroup :=
        { position := c.smoothGroup.position.lerp target.position adaptiveAlpha
          quaternion := Quat.slerp c.smoothGroup.quaternion target.quaternion adaptiveAlpha
          scale := c.smoothGroup.scale.lerp
            (target.scale.multiplyScalar c.data.overscan) adaptiveAlpha } }

/-- A run of consecutive ticks: fold tick over a list of (target, deltaTime)
samples. -/
def SmoothFollow.run (c : SmoothFollow) (steps : List (Pose × ℝ)) :
    SmoothFollow :=
  steps.foldl (fun s p => s.tick p.1 p.2) c

/-- The unit-quaternion invariant of the orientation-filter state: whenever
lastQuat holds a quaternion, it is a unit quaternion. -/
def UnitQuatState (f : OneEuroFilter) : Prop :=
  ∀ lq, f.lastQuat = some lq → lq.normSq = 1

/-- A concrete tracking state: anchor present, visible, snap consumed,
alphaMin = 1/8, alphaMax = 1/4, output at the origin pose. -/
def follow0 : SmoothFollow :=
  ⟨⟨true, 1, 1 / 8, 1 / 4⟩, .init, false, true, true,
   ⟨⟨0, 0, 0⟩, ⟨0, 0, 0, 1⟩, ⟨1, 1, 1⟩⟩⟩

/-- A concrete raw target pose one unit away from follow0's output. -/
def pose0 : Pose := ⟨⟨1, 0, 0⟩, ⟨0, 0, 0, 1⟩, ⟨1, 1, 1⟩⟩

/-- A concrete state with arbitrary stale filter history, not visible, snap
flag clear. -/
def follow1 : SmoothFollow :=
  ⟨⟨true, 2, 1 / 8, 1 / 4⟩,
   ⟨1, 0, 1, some 5, ⟨some 3, none⟩, ⟨some 4, none⟩, ⟨some 5, none⟩,
    some ⟨1, 0, 0, 0⟩, .init⟩,
   false, false, false, ⟨⟨9, 9, 9⟩, ⟨1, 0, 0, 0⟩, ⟨5, 5, 5⟩⟩⟩

/-- A concrete raw pose distinct from follow1's stale state. -/
def pose1 : Pose := ⟨⟨1, 2, 3⟩, ⟨0, 0, 0, 1⟩, ⟨1, 1, 1⟩⟩

/-- A OneEuroFilter whose lastQuat is the identity quaternion. -/
def filter7 : OneEuroFilter :=
  { OneEuroFilter.init with lastQuat := some ⟨0, 0, 0, 1⟩ }

/-- A concrete unit quaternion orthogonal to the identity. -/
def quat7 : Quat := ⟨1, 0, 0, 0⟩

/-!  Helper lemmas about the tick branches. -/

/-- A tick while not visible returns the state unchanged. -/
lemma tick_not_visible (c : SmoothFollow) (target : Pose) (dt : ℝ)
    (h : c.isVisible = false) : c.tick target dt = c := by
  unfold SmoothFollow.tick
  simp [h]

/-- A tick with the snap flag set copies the target pose, applies overscan
to the scale, and clears the flag. -/
lemma tick_snap (c : SmoothFollow) (target : Pose) (dt : ℝ)
    (hA : c.data.hasAnchor = true) (hV : c.isVisible = true)
    (hS : c.snapNextFrame = true) :
    c.tick target dt =
      { c with
        smoothGroup :=
          { position := target.position
            quaternion := target.quaternion
            scale := target.scale.multiplyScalar c.data.overscan }
        snapNextFrame := false } := by
  unfold SmoothFollow.tick
  simp [hA, hV, hS]

/-- With both speeds zero, the adaptive alpha is exactly alphaMin. -/
lemma computeAdaptiveAlpha_zero_speeds (amin amax : ℝ) (h : amin ≤ amax) :
    OneEuroFilter.computeAdaptiveAlpha 0 0 amin amax = amin := by
  simp only [OneEuroFilter.computeAdaptiveAlpha]
  rw [show (0 : ℝ) * 0 + 0 * 0 = 0 by ring, Real.sqrt_zero]
  rw [show (0 : ℝ) * 2 = 0 by ring]
  rw [min_eq_right (by norm_num : (0 : ℝ) ≤ 1)]
  rw [mul_zero, add_zero, min_eq_right h, max_self]

/-- What a non-snap tick with non-positive dt actually does: both speed
estimates are zero (their dt guards), so the adaptive alpha degenerates to
alphaMin and the pose is still blended toward the target by alphaMin. -/
lemma tick_nonpos_dt_eval (c : SmoothFollow) (target : Pose) (dt : ℝ)
    (hA : c.data.hasAnchor = true) (hV : c.isVisible = true)
    (hS : c.snapNextFrame = false) (hdt : dt ≤ 0)
    (hab : c.data.alphaMin ≤ c.data.alphaMax) :
    c.computeLinearSpeed target dt = 0
    ∧ c.computeAngularSpeed target dt = 0
    ∧ (c.tick target dt).smoothGroup =
        { position := c.smoothGroup.position.lerp target.position c.data.alphaMin
          quaternion :=
            Quat.slerp c.smoothGroup.quaternion target.quaternion c.data.alphaMin
          scale := c.smoothGroup.scale.lerp
            (target.scale.multiplyScalar c.data.overscan) c.data.alphaMin } := by
  have hls : c.computeLinearSpeed target dt = 0 := by
    unfold SmoothFollow.computeLinearSpeed
    simp [hdt]
  have has : c.computeAngularSpeed target dt = 0 := by
    unfold SmoothFollow.computeAngularSpeed
    simp [hdt]
  refine ⟨hls, has, ?_⟩
  unfold SmoothFollow.tick
  simp only [hA, hV, hS, Bool.not_true, Bool.false_or, Bool.or_self, if_false,
    Bool.false_eq_true, if_neg, hls, has]
  rw [computeAdaptiveAlpha_zero_speeds _ _ hab]

/-!  Quaternion lemmas for the slerp-based claims. -/

lemma Quat.normSq_nonneg (q : Quat) : 0 ≤ q.normSq := by
  unfold Quat.normSq
  linarith [mul_self_nonneg q.x, mul_self_nonneg q.y, mul_self_nonneg q.z,
    mul_self_nonneg q.w]

lemma Quat.length_eq_one (q : Quat) (h : q.normSq = 1) : q.length = 1 := by
  unfold Quat.length
  rw [h]
  exact Real.sqrt_one

/-- three.js normalize always yields a unit quaternion: the zero quaternion
is mapped to the identity, anything else is scaled by 1/length. -/
lemma Quat.normSq_normalize (q : Quat) : q.normalize.normSq = 1 := by
  simp only [Quat.normalize]
  split_ifs with h
  · norm_num [Quat.normSq]
  · have hl : q.length * q.length = q.normSq :=
      Real.mul_self_sqrt q.normSq_nonneg
    simp only [Quat.normSq] at hl ⊢
    field_simp
    linear_combination -hl

/-- The addition-formula identity behind unit-norm preservation of slerp. -/
lemma sin_sq_add_identity (a b : ℝ) :
    Real.sin (a + b) ^ 2
      = Real.sin a ^ 2 + Real.sin b ^ 2
        + 2 * Real.sin a * Real.sin b * Real.cos (a + b) := by
  rw [Real.sin_add, Real.cos_add]
  have h1 := Real.sin_sq_add_cos_sq a
  have h2 := Real.sin_sq_add_cos_sq b
  linear_combination (Real.sin a ^ 2) * h2 + (Real.sin b ^ 2) * h1

/-- The slerp ratios ratioA, ratioB at clamped cosine c satisfy
ratioA² + 2·ratioA·ratioB·c + ratioB² = 1. -/
lemma ratio_identity (c t : ℝ) (hc0 : 0 ≤ c) (hc1 : c < 1) :
    Real.sin ((1 - t) * Real.arccos c) / Real.sqrt (1 - c * c)
        * (Real.sin ((1 - t) * Real.arccos c) / Real.sqrt (1 - c * c))
      + 2 * (Real.sin ((1 - t) * Real.arccos c) / Real.sqrt (1 - c * c))
        * (Real.sin (t * Real.arccos c) / Real.sqrt (1 - c * c)) * c
      + Real.sin (t * Real.arccos c) / Real.sqrt (1 - c * c)
        * (Real.sin (t * Real.arccos c) / Real.sqrt (1 - c * c)) = 1 := by
  have hcc : 0 < 1 - c * c := by nlinarith
  have hs : 0 < Real.sqrt (1 - c * c) := Real.sqrt_pos.mpr hcc
  have hss : Real.sqrt (1 - c * c) * Real.sqrt (1 - c * c) = 1 - c * c :=
    Real.mul_self_sqrt (le_of_lt hcc)
  have hsin : Real.sin (Real.arccos c) ^ 2 = 1 - c * c := by
    rw [Real.sin_arccos, sq, Real.mul_self_sqrt (by nlinarith)]
    ring
  have hcos : Real.cos (Real.arccos c) = c :=
    Real.cos_arccos (by linarith) (le_of_lt hc1)
  have key := sin_sq_add_identity ((1 - t) * Real.arccos c) (t * Real.arccos c)
  rw [show (1 - t) * Real.arccos c + t * Real.arccos c = Real.arccos c by ring,
    hcos] at key
  field_simp
  linear_combination hsin - key

/-- The main trigonometric branch of slerp applied to unit quaternions with
clamped cosine c yields a unit quaternion. -/
lemma normSq_ratio_combo (p q2 : Quat) (t c : ℝ)
    (hp : p.normSq = 1) (hq2 : q2.normSq = 1)
    (hd : p.w * q2.w + p.x * q2.x + p.y * q2.y + p.z * q2.z = c)
    (hc0 : 0 ≤ c) (hc1 : c < 1) :
    Quat.normSq
      ⟨p.x * (Real.sin ((1 - t) * Real.arccos c) / Real.sqrt (1 - c * c))
         + q2.x * (Real.sin (t * Real.arccos c) / Real.sqrt (1 - c * c)),
       p.y * (Real.sin ((1 - t) * Real.arccos c) / Real.sqrt (1 - c * c))
         + q2.y * (Real.sin (t * Real.arccos c) / Real.sqrt (1 - c * c)),
       p.z * (Real.sin ((1 - t) * Real.arccos c) / Real.sqrt (1 - c * c))
         + q2.z * (Real.sin (t * Real.arccos c) / Real.sqrt (1 - c * c)),
       p.w * (Real.sin ((1 - t) * Real.arccos c) / Real.sqrt (1 - c * c))
         + q2.w * (Real.sin (t * Real.arccos c) / Real.sqrt (1 - c * c))⟩ = 1 := by
  have key := ratio_identity c t hc0 hc1
  simp only [Quat.normSq] at hp hq2 ⊢
  set A := Real.sin ((1 - t) * Real.arccos c) / Real.sqrt (1 - c * c) with hA
  set B := Real.sin (t * Real.arccos c) / Real.sqrt (1 - c * c) with hB
  linear_combination (A * A) * hp + (B * B) * hq2 + (2 * A * B) * hd + key

/-- three.js slerp maps unit quaternions to a unit quaternion, for every
interpolation parameter t. -/
lemma Quat.normSq_slerp (p q : Quat) (t : ℝ)
    (hp : p.normSq = 1) (hq : q.normSq = 1) :
    (Quat.slerp p q t).normSq = 1 := by
  have hqneg : Quat.normSq ⟨-q.x, -q.y, -q.z, -q.w⟩ = 1 := by
    simp only [Quat.normSq] at hq ⊢
    linarith [hq]
  simp only [Quat.slerp]
  split_ifs with ht0 ht1 hneg hge heps hge2 heps2
  · exact hp
  · exact hq
  · exact hp
  · exact Quat.normSq_normalize _
  · exact normSq_ratio_combo p ⟨-q.x, -q.y, -q.z, -q.w⟩ t
      (-(p.w * q.w + p.x * q.x + p.y * q.y + p.z * q.z)) hp hqneg
      (by ring) (by linarith [hneg]) (by linarith [lt_of_not_le hge])
  · exact hp
  · exact Quat.normSq_normalize _
  · exact normSq_ratio_combo p q t
      (p.w * q.w + p.x * q.x + p.y * q.y + p.z * q.z) hp hq
      rfl (le_of_not_lt hneg) (lt_of_not_le hge2)

/-- Slerp of a unit quaternion with itself is that quaternion, for every t:
the dot product equals the squared norm 1, so the cosHalfTheta >= 1 early
out fires. -/
lemma Quat.slerp_self (q : Quat) (t : ℝ) (hq : q.normSq = 1) :
    Quat.slerp q q t = q := by
  have hdot : q.w * q.w + q.x * q.x + q.y * q.y + q.z * q.z = 1 := by
    simp only [Quat.normSq] at hq
    linarith [hq]
  simp only [Quat.slerp]
  split_ifs with ht0 ht1 hneg hge heps hge2 heps2
  · rfl
  · rfl
  · rfl
  · exact absurd hdot (by intro h; rw [h] at hneg; norm_num at hneg)
  · exact absurd hdot (by intro h; rw [h] at hneg; norm_num at hneg)
  · rfl
  · exact absurd hdot (by intro h; rw [h] at hge2; norm_num at hge2)
  · exact absurd hdot (by intro h; rw [h] at hge2; norm_num at hge2)

/-- Lerp of a vector toward itself is the identity, for every alpha. -/
lemma Vec3.lerp_self (v : Vec3) (a : ℝ) : Vec3.lerp v v a = v := by
  simp only [Vec3.lerp]
  obtain ⟨x, y, z⟩ := v
  simp only [Vec3.mk.injEq]
  refine ⟨by ring, by ring, by ring⟩

/-- A non-snap tick whose output already equals the raw pose (with overscan
on the scale) leaves the state unchanged: the converged pose is a fixed
point. -/
lemma tick_fixed_point (c : SmoothFollow) (raw : Pose) (dt : ℝ)
    (hA : c.data.hasAnchor = true) (hV : c.isVisible = true)
    (hS : c.snapNextFrame = false) (hq : raw.quaternion.normSq = 1)
    (hsm : c.smoothGroup =
      { position := raw.position
        quaternion := raw.quaternion
        scale := raw.scale.multiplyScalar c.data.overscan }) :
    c.tick raw dt = c := by
  obtain ⟨⟨ha, ov, amin, amax⟩, f, sn, vis, vpv, sg⟩ := c
  subst hA hV hS
  replace hsm : sg =
      { position := raw.position
        quaternion := raw.quaternion
        scale := raw.scale.multiplyScalar ov } := hsm
  subst hsm
  unfold SmoothFollow.tick
  simp only [Bool.not_true, Bool.or_self, Bool.false_eq_true, if_false]
  simp only [Vec3.lerp_self, Quat.slerp_self _ _ hq]

/-!  Theorems. -/

/-- Claim C1: the claim states the scalar low-pass filter weights the new
value by a = dt / (dt + 1/(2π·cutoff)), with a → 1 as dt → ∞.  Evaluating
the source's filter at cutoff = 1/(2π) (so RC = 1), dt = 3, lastValue = 0,
value = 1: the code returns RC/(RC+dt) = 1/4, while the claim's formula
gives dt/(dt+RC) = 3/4 — the code weights the new value by RC/(RC+dt),
which tends to 0, not 1, as dt → ∞. -/
theorem lowPassFilter_weights_new_value_by_RC_fraction :
    (LowPassFilter.filter ⟨some 0, none⟩ 1 (1 / (2 * Real.pi)) 3).2 = 1 / 4
    ∧ ((1 : ℝ) / 4) ≠ 3 / (3 + 1) := by
  have hc : (1 : ℝ) / (2 * Real.pi) * 2 * Real.pi = 1 := by
    have hπ : (Real.pi : ℝ) ≠ 0 := Real.pi_ne_zero
    field_simp
  have hRC : lowPassAlpha (1 / (2 * Real.pi)) 3 = 1 / 4 := by
    show (1 / ((1 : ℝ) / (2 * Real.pi) * 2 * Real.pi)) /
      ((1 / ((1 : ℝ) / (2 * Real.pi) * 2 * Real.pi)) + 3) = 1 / 4
    rw [hc]
    norm_num
  constructor
  · show lowPassAlpha (1 / (2 * Real.pi)) 3 * 1
      + (1 - lowPassAlpha (1 / (2 * Real.pi)) 3) * 0 = 1 / 4
    rw [hRC]
    norm_num
  · norm_num

/-- Claim C2: the claim states the smoothing factor applied to the new value
is monotone non-decreasing in dt and in cutoff.  At cutoff = 1/(2π), the
source's factor is 1/2 at dt = 1 but 1/4 at dt = 3: it strictly decreases
as dt grows, refuting the monotonicity direction. -/
theorem lowPassAlpha_strictly_decreasing_in_dt :
    lowPassAlpha (1 / (2 * Real.pi)) 1 = 1 / 2
    ∧ lowPassAlpha (1 / (2 * Real.pi)) 3 = 1 / 4
    ∧ ¬ (lowPassAlpha (1 / (2 * Real.pi)) 1 ≤ lowPassAlpha (1 / (2 * Real.pi)) 3) := by
  have hc : (1 : ℝ) / (2 * Real.pi) * 2 * Real.pi = 1 := by
    have hπ : (Real.pi : ℝ) ≠ 0 := Real.pi_ne_zero
    field_simp
  have h1 : lowPassAlpha (1 / (2 * Real.pi)) 1 = 1 / 2 := by
    show (1 / ((1 : ℝ) / (2 * Real.pi) * 2 * Real.pi)) /
      ((1 / ((1 : ℝ) / (2 * Real.pi) * 2 * Real.pi)) + 1) = 1 / 2
    rw [hc]; norm_num
  have h3 : lowPassAlpha (1 / (2 * Real.pi)) 3 = 1 / 4 := by
    show (1 / ((1 : ℝ) / (2 * Real.pi) * 2 * Real.pi)) /
      ((1 / ((1 : ℝ) / (2 * Real.pi) * 2 * Real.pi)) + 3) = 1 / 4
    rw [hc]; norm_num
  refine ⟨h1, h3, ?_⟩
  rw [h1, h3]
  norm_num

/-- Claim C3 (counterexample): a tick with dt = 0 in TRACKING state is not a
no-op: from output position x = 0 and target x = 1 with alphaMin = 1/8, the
tick moves the output to x = 1/8. -/
theorem tick_zero_dt_changes_output :
    (follow0.tick pose0 0).smoothGroup.position.x
      ≠ follow0.smoothGroup.position.x := by
  have h := tick_nonpos_dt_eval follow0 pose0 0 rfl rfl rfl le_rfl
    (by norm_num [follow0])
  have hx : (follow0.tick pose0 0).smoothGroup.position.x = 1 / 8 := by
    rw [h.2.2]
    norm_num [follow0, pose0, Vec3.lerp]
  rw [hx]
  norm_num [follow0]

/-- Claim C3 (amended): a tick invoked with dtSeconds ≤ 0 in TRACKING state
with the snap flag clear incurs no division by zero — both speed estimates
return 0 — but it is not a no-op: the adaptive alpha degenerates to
alphaMin, and the output pose is still blended toward the raw target by
alphaMin. -/
theorem tick_nonpos_dt_blends_at_alphaMin (c : SmoothFollow) (target : Pose)
    (dt : ℝ) (hA : c.data.hasAnchor = true) (hV : c.isVisible = true)
    (hS : c.snapNextFrame = false) (hdt : dt ≤ 0)
    (hab : c.data.alphaMin ≤ c.data.alphaMax) :
    c.computeLinearSpeed target dt = 0
    ∧ c.computeAngularSpeed target dt = 0
    ∧ (c.tick target dt).smoothGroup =
        { position := c.smoothGroup.position.lerp target.position c.data.alphaMin
          quaternion :=
            Quat.slerp c.smoothGroup.quaternion target.quaternion c.data.alphaMin
          scale := c.smoothGroup.scale.lerp
            (target.scale.multiplyScalar c.data.overscan) c.data.alphaMin } :=
  tick_nonpos_dt_eval c target dt hA hV hS hdt hab

/-- Witness for the amended C3 at the concrete state follow0, target pose0,
dt = 0. -/
theorem tick_nonpos_dt_blends_at_alphaMin_witness :
    follow0.computeLinearSpeed pose0 0 = 0
    ∧ follow0.computeAngularSpeed pose0 0 = 0
    ∧ (follow0.tick pose0 0).smoothGroup =
        { position := follow0.smoothGroup.position.lerp pose0.position
            follow0.data.alphaMin
          quaternion := Quat.slerp follow0.smoothGroup.quaternion
            pose0.quaternion follow0.data.alphaMin
          scale := follow0.smoothGroup.scale.lerp
            (pose0.scale.multiplyScalar follow0.data.overscan)
            follow0.data.alphaMin } :=
  tick_nonpos_dt_blends_at_alphaMin follow0 pose0 0 rfl rfl rfl le_rfl
    (by norm_num [follow0])

/-- Claim C4: after onTargetFound, the first tick (for any dt and any prior
filter state) copies the raw position and orientation exactly, sets the
scale to the raw scale times overscan, and clears the snap flag. -/
theorem first_tick_after_acquire_snaps (c : SmoothFollow) (target : Pose)
    (dt : ℝ) (hA : c.data.hasAnchor = true) :
    ((c.onTargetFound).tick target dt).smoothGroup.position = target.position
    ∧ ((c.onTargetFound).tick target dt).smoothGroup.quaternion = target.quaternion
    ∧ ((c.onTargetFound).tick target dt).smoothGroup.scale
        = target.scale.multiplyScalar c.data.overscan
    ∧ ((c.onTargetFound).tick target dt).snapNextFrame = false := by
  have h := tick_snap (c.onTargetFound) target dt hA rfl rfl
  rw [h]
  exact ⟨rfl, rfl, rfl, rfl⟩

/-- Witness for C4 at the stale concrete state follow1 with dt = 0. -/
theorem first_tick_after_acquire_snaps_witness :
    ((follow1.onTargetFound).tick pose1 0).smoothGroup.position = pose1.position
    ∧ ((follow1.onTargetFound).tick pose1 0).smoothGroup.quaternion = pose1.quaternion
    ∧ ((follow1.onTargetFound).tick pose1 0).smoothGroup.scale
        = pose1.scale.multiplyScalar follow1.data.overscan
    ∧ ((follow1.onTargetFound).tick pose1 0).snapNextFrame = false :=
  first_tick_after_acquire_snaps follow1 pose1 0 rfl

/-- Claim C5: after onTargetLost, any sequence of subsequent ticks — any raw
samples and any dt values — leaves the smoothed output pose (position,
orientation, scale) unchanged. -/
theorem pose_frozen_after_lose (c : SmoothFollow) (steps : List (Pose × ℝ)) :
    ((c.onTargetLost).run steps).smoothGroup = (c.onTargetLost).smoothGroup := by
  suffices h : ∀ s : SmoothFollow, s.isVisible = false → s.run steps = s by
    rw [h _ rfl]
  induction steps with
  | nil => intro s _; rfl
  | cons p ps ih =>
      intro s hs
      show (s.tick p.1 p.2).run ps = s
      rw [tick_not_visible s p.1 p.2 hs]
      exact ih s hs

/-- Claim C8: with beta ≥ 0 and dt > 0, both the adaptive cutoff
mincutoff + beta·rate and the resulting slerp blend factor
min(1, cutoff·dt) of the orientation filter are monotone non-decreasing in
the estimated rate. -/
theorem adaptiveCutoff_blend_monotone (mincutoff beta dt r1 r2 : ℝ)
    (hb : 0 ≤ beta) (hr : r1 < r2) (hdt : 0 < dt) :
    adaptiveCutoff mincutoff beta r1 ≤ adaptiveCutoff mincutoff beta r2
    ∧ quatBlendAlpha (adaptiveCutoff mincutoff beta r1) dt
      ≤ quatBlendAlpha (adaptiveCutoff mincutoff beta r2) dt := by
  have h1 : adaptiveCutoff mincutoff beta r1 ≤ adaptiveCutoff mincutoff beta r2 := by
    unfold adaptiveCutoff
    nlinarith
  refine ⟨h1, ?_⟩
  unfold quatBlendAlpha
  exact min_le_min le_rfl (by nlinarith [h1])

/-- Witness for C8 at mincutoff = 1, beta = 2, dt = 1, r1 = 3, r2 = 4. -/
theorem adaptiveCutoff_blend_monotone_witness :
    adaptiveCutoff 1 2 3 ≤ adaptiveCutoff 1 2 4
    ∧ quatBlendAlpha (adaptiveCutoff 1 2 3) 1 ≤ quatBlendAlpha (adaptiveCutoff 1 2 4) 1 :=
  adaptiveCutoff_blend_monotone 1 2 1 3 4 (by norm_num) (by norm_num) (by norm_num)

/-- Claim C6: with the anchor present, a unit raw orientation and fixed
dt > 0, the first tick after acquire makes the output equal the raw pose
(scale times overscan), and every subsequent tick with the same constant
raw pose leaves it exactly equal: a converged constant signal is a fixed
point of the smoothing pipeline. -/
theorem constant_input_fixed_point (c : SmoothFollow) (raw : Pose) (dt : ℝ)
    (n : ℕ) (hA : c.data.hasAnchor = true) (hdt : 0 < dt)
    (hq : raw.quaternion.normSq = 1) :
    ((fun s => SmoothFollow.tick s raw dt)^[n]
        ((c.onTargetFound).tick raw dt)).smoothGroup
      = { position := raw.position
          quaternion := raw.quaternion
          scale := raw.scale.multiplyScalar c.data.overscan } := by
  have hsnap := tick_snap (c.onTargetFound) raw dt hA rfl rfl
  have hfix := tick_fixed_point ((c.onTargetFound).tick raw dt) raw dt
    (by rw [hsnap]; exact hA) (by rw [hsnap]; rfl) (by rw [hsnap]) hq
    (by rw [hsnap])
  rw [@Function.iterate_fixed SmoothFollow (fun s => SmoothFollow.tick s raw dt)
    ((c.onTargetFound).tick raw dt) hfix n, hsnap]
  rfl

/-- Witness for C6 at the stale concrete state follow1, raw pose pose1,
dt = 1, n = 2 further ticks. -/
theorem constant_input_fixed_point_witness :
    ((fun s => SmoothFollow.tick s pose1 1)^[2]
        ((follow1.onTargetFound).tick pose1 1)).smoothGroup
      = { position := pose1.position
          quaternion := pose1.quaternion
          scale := pose1.scale.multiplyScalar follow1.data.overscan } :=
  constant_input_fixed_point follow1 pose1 1 2 rfl (by norm_num)
    (by norm_num [Quat.normSq, pose1])

/-- Claim C7 (counterexample): with lastQuat the identity and a raw
quaternion at 90 degrees (dot = 0), dt = 1, the source computes
acos(clamp(0)) = π/2, not 2·acos(clamp(|0|)) = π as the claim's formula
states. -/
theorem computeAngularRate_no_doubling :
    OneEuroFilter.computeAngularRate filter7 quat7 1
      ≠ 2 * Real.arccos (max (-1) (min 1 |Quat.dot (Quat.mk 0 0 0 1) quat7|)) / 1 := by
  have hd : Quat.dot (Quat.mk 0 0 0 1) quat7 = 0 := by
    norm_num [Quat.dot, quat7]
  have hclamp : max (-1 : ℝ) (min 1 (0 : ℝ)) = 0 := by norm_num
  have hL : OneEuroFilter.computeAngularRate filter7 quat7 1 = Real.pi / 2 := by
    show Real.arccos (max (-1) (min 1 (Quat.dot (Quat.mk 0 0 0 1) quat7))) / 1
      = Real.pi / 2
    rw [hd, hclamp, Real.arccos_zero]
    norm_num
  rw [hL, hd, abs_zero, hclamp, Real.arccos_zero]
  intro h
  ring_nf at h
  linarith [Real.pi_pos]

/-- Claim C7 (amended): on every non-first invocation, the angular
difference is angle = acos(clamp(dot, -1, 1)) — the quaternion dot product
is clamped to [-1, 1] before the inverse cosine, so acos never receives an
out-of-range argument — and the angular rate is angle / dt; there is no
doubling and no absolute value. -/
theorem computeAngularRate_clamped_acos (f : OneEuroFilter) (q lq : Quat)
    (dt : ℝ) (h : f.lastQuat = some lq) :
    -1 ≤ max (-1) (min 1 (Quat.dot lq q))
    ∧ max (-1) (min 1 (Quat.dot lq q)) ≤ 1
    ∧ f.computeAngularRate q dt
        = Real.arccos (max (-1) (min 1 (Quat.dot lq q))) / dt := by
  refine ⟨le_max_left _ _, max_le (by norm_num) (min_le_left _ _), ?_⟩
  unfold OneEuroFilter.computeAngularRate
  rw [h]

/-- Witness for the amended C7 at the concrete filter7 state, input quat7,
dt = 2. -/
theorem computeAngularRate_clamped_acos_witness :
    -1 ≤ max (-1) (min 1 (Quat.dot (Quat.mk 0 0 0 1) quat7))
    ∧ max (-1) (min 1 (Quat.dot (Quat.mk 0 0 0 1) quat7)) ≤ 1
    ∧ OneEuroFilter.computeAngularRate filter7 quat7 2
        = Real.arccos (max (-1) (min 1 (Quat.dot (Quat.mk 0 0 0 1) quat7))) / 2 :=
  computeAngularRate_clamped_acos filter7 quat7 (Quat.mk 0 0 0 1) 2 rfl

/-- Claim C9: the orientation filter preserves the unit-norm invariant:
when every stored quaternion is a unit quaternion and the input is a unit
quaternion, the returned quaternion has norm exactly 1 (hence within 1e-6
of 1) and the updated state satisfies the invariant again — on first
invocations and on slerp updates alike. -/
theorem filterQuaternion_unit (f : OneEuroFilter) (q : Quat) (ts : ℝ)
    (hf : UnitQuatState f) (hq : q.normSq = 1) :
    ((f.filterQuaternion q ts).2).length = 1
    ∧ UnitQuatState (f.filterQuaternion q ts).1 := by
  rcases hT : f.lastTime with _ | lt <;> rcases hQ : f.lastQuat with _ | lq <;>
    simp only [OneEuroFilter.filterQuaternion, hT, hQ]
  · exact ⟨Quat.length_eq_one q hq, fun lq' h' => by
      injection h' with h''
      rw [← h'']
      exact hq⟩
  · exact ⟨Quat.length_eq_one q hq, fun lq' h' => by
      injection h' with h''
      rw [← h'']
      exact hq⟩
  · exact ⟨Quat.length_eq_one q hq, fun lq' h' => by
      injection h' with h''
      rw [← h'']
      exact hq⟩
  · split_ifs with hdt
    · refine ⟨Quat.length_eq_one q hq, fun lq' h' => ?_⟩
      injection h' with h''
      rw [← h'']
      exact hf lq hQ
    · constructor
      · exact Quat.length_eq_one _ (Quat.normSq_slerp lq q _ (hf lq hQ) hq)
      · intro lq' h'
        injection h' with h''
        rw [← h'']
        exact Quat.normSq_slerp lq q _ (hf lq hQ) hq

/-- Witness for C9: a first invocation on the freshly constructed filter
with the identity quaternion at timestamp 5. -/
theorem filterQuaternion_unit_witness :
    ((OneEuroFilter.init.filterQuaternion ⟨0, 0, 0, 1⟩ 5).2).length = 1
    ∧ UnitQuatState (OneEuroFilter.init.filterQuaternion ⟨0, 0, 0, 1⟩ 5).1 :=
  filterQuaternion_unit OneEuroFilter.init ⟨0, 0, 0, 1⟩ 5
    (fun lq h => by simp [OneEuroFilter.init] at h)
    (by norm_num [Quat.normSq])

/-- Claim C10: for any linear and angular speeds and any alphaMin ≤
alphaMax, computeAdaptiveAlpha returns a value in [alphaMin, alphaMax]. -/
theorem computeAdaptiveAlpha_clamped (l a amin amax : ℝ) (h : amin ≤ amax) :
    amin ≤ OneEuroFilter.computeAdaptiveAlpha l a amin amax
    ∧ OneEuroFilter.computeAdaptiveAlpha l a amin amax ≤ amax := by
  unfold OneEuroFilter.computeAdaptiveAlpha
  exact ⟨le_max_left _ _, max_le h (min_le_left _ _)⟩

/-- Witness for C10 at speeds 5 and -7 with bounds [1/8, 1/4]. -/
theorem computeAdaptiveAlpha_clamped_witness :
    (1 : ℝ) / 8 ≤ OneEuroFilter.computeAdaptiveAlpha 5 (-7) (1 / 8) (1 / 4)
    ∧ OneEuroFilter.computeAdaptiveAlpha 5 (-7) (1 / 8) (1 / 4) ≤ 1 / 4 :=
  computeAdaptiveAlpha_clamped 5 (-7) (1 / 8) (1 / 4) (by norm_num)

end
